import Mathlib

/-!
Shallow embedding of the LEGO investment ML pipeline
(`scripts/ml/` of hadley-bricks-inventory-management), with theorems
checking the natural-language specification against the code.

All exact arithmetic is over `ℚ`; values that the source computes with
`math.sqrt`/`math.log`/`math.exp` are modelled over `ℝ`.  Nullable columns
(pandas `NaN` / JSON `null`) are modelled as `Option`.
-/

/-! Section: Statistics helpers (pandas / numpy semantics over exact rationals) -/

/-- Arithmetic mean of a list (pandas `Series.mean`); `0` on the empty list
(the code only applies it to nonempty windows). -/
def ratMean (xs : List ℚ) : ℚ := xs.sum / xs.length

/-- Sorted copy of a list, ascending (what pandas does before a median/quantile). -/
def sortQ (xs : List ℚ) : List ℚ := List.insertionSort (· ≤ ·) xs

/-- Median (pandas `Series.median`): middle element of the sorted values for odd
length, average of the two middle elements for even length. -/
def ratMedian (xs : List ℚ) : ℚ :=
  let s := sortQ xs
  if xs.length % 2 = 1 then s.getD (xs.length / 2) 0
  else (s.getD (xs.length / 2 - 1) 0 + s.getD (xs.length / 2) 0) / 2

/-- Sample variance with `ddof = 1` (pandas `Series.std` squared). -/
def ratVar (xs : List ℚ) : ℚ :=
  ((xs.map fun v => (v - ratMean xs) ^ 2).sum) / ((xs.length : ℚ) - 1)

/-- Population variance with `ddof = 0` (numpy `ndarray.std` squared). -/
def ratVarPop (xs : List ℚ) : ℚ :=
  ((xs.map fun v => (v - ratMean xs) ^ 2).sum) / (xs.length : ℚ)

/-- Sample standard deviation (pandas `Series.std`, `ddof = 1`). -/
noncomputable def ratStd (xs : List ℚ) : ℝ := Real.sqrt ((ratVar xs : ℚ) : ℝ)

/-! Section: the data model.  A forecast horizon (`config.HORIZONS`): -/

inductive Horizon
  | h6m | h1yr | h2yr | h3yr
  deriving DecidableEq, Repr

/-- A row of `investment_training_data` joined with `brickset_sets` metadata,
as consumed by `engineer_features.compute_theme_historical_features`:
the theme (nullable), the retirement date (days, always present for a
training row) and the four log-return targets (nullable). -/
structure FeatRow where
  theme : Option String
  exitDate : ℤ
  target6m : Option ℚ
  target1yr : Option ℚ
  target2yr : Option ℚ
  target3yr : Option ℚ

/-- The `target_{horizon}` column of a row. -/
def FeatRow.target (r : FeatRow) : Horizon → Option ℚ
  | .h6m => r.target6m
  | .h1yr => r.target1yr
  | .h2yr => r.target2yr
  | .h3yr => r.target3yr

/-! Section: `engineer_features.compute_theme_historical_features` -/

/-- Embeds `df.sort_values("exit_date")` — the temporal-lookback ordering. -/
def sortByExit (df : List FeatRow) : List FeatRow :=
  List.insertionSort (fun a b => a.exitDate ≤ b.exitDate) df

/-- The prior-items pool for one row at one horizon: rows of the sorted frame
with the same theme, a strictly earlier `exit_date`, and a non-null target
(`df_sorted[(theme ==) & (exit_date <) & (target notna)]`). -/
def themePrior (h : Horizon) (df : List FeatRow) (t : String) (exit : ℤ) : List FeatRow :=
  (sortByExit df).filter fun r =>
    decide (r.theme = some t ∧ r.exitDate < exit ∧ (r.target h).isSome)

/-- The four theme-historical feature values for one (row, horizon) pair, as
persisted to the `features` JSONB column (each column nullable). -/
structure ThemeFeatures where
  mean : Option ℚ
  median : Option ℚ
  std : Option ℝ
  sampleSize : Option ℕ

/-- One iteration of the loop in `compute_theme_historical_features`: null theme
gives all-NaN stats with count 0; otherwise aggregate over the prior pool when
it has at least 3 rows, else NaN stats but the actual prior count. -/
noncomputable def computeThemeHistorical (h : Horizon) (df : List FeatRow) (x : FeatRow) :
    ThemeFeatures :=
  match x.theme with
  | none => ⟨none, none, none, some 0⟩
  | some t =>
    let prior := themePrior h df t x.exitDate
    let vals := prior.filterMap fun r => r.target h
    if 3 ≤ prior.length then
      ⟨some (ratMean vals), some (ratMedian vals), some (ratStd vals), some prior.length⟩
    else
      ⟨none, none, none, some prior.length⟩

/-! Section: `build_training_data` — the Milestone Price Aggregator -/

/-- Embeds `config.MIN_SNAPSHOTS_PER_WINDOW`. -/
def MIN_SNAPSHOTS_PER_WINDOW : ℕ := 3

/-- Embeds `config.MILESTONES`: milestone name, centre offset (days from `exit_date`)
and half-width. -/
def MILESTONES : List (String × ℤ × ℤ) :=
  [("retirement", 0, 15), ("6m", 180, 30), ("1yr", 365, 30),
   ("2yr", 730, 30), ("3yr", 1095, 30)]

/-- A retired set eligible for training (`fetch_retired_sets` output row). -/
structure SetRow where
  setNum : String
  exitDate : ℤ
  rrp : ℚ
  deriving DecidableEq

/-- One price observation (`price_snapshots` row with non-null price). -/
structure Snapshot where
  setNum : String
  date : ℤ
  price : ℚ
  deriving DecidableEq

/-- Embeds `set_snaps = snapshots_df[snapshots_df["set_num"] == set_num]`. -/
def snapsFor (snaps : List Snapshot) (num : String) : List Snapshot :=
  snaps.filter fun s => s.setNum == num

/-- The observations inside one milestone window:
`(date >= exit + (centre - half_width)) & (date <= exit + (centre + half_width))`
— a closed window on both ends. -/
def windowSnaps (snaps : List Snapshot) (exit c hw : ℤ) : List Snapshot :=
  snaps.filter fun s => decide (exit + (c - hw) ≤ s.date ∧ s.date ≤ exit + (c + hw))

/-- The milestone's representative price: the median of the qualifying
observations when at least `MIN_SNAPSHOTS_PER_WINDOW` qualify, else null. -/
def milestonePrice (snaps : List Snapshot) (exit c hw : ℤ) : Option ℚ :=
  let w := windowSnaps snaps exit c hw
  if MIN_SNAPSHOTS_PER_WINDOW ≤ w.length then some (ratMedian (w.map Snapshot.price))
  else none

/-- Embeds `target_h = log(price / rrp)` when the milestone price is present and both
it and the launch price are positive; null otherwise. -/
noncomputable def logTarget (p? : Option ℚ) (rrp : ℚ) : Option ℝ :=
  match p? with
  | some p => if 0 < p ∧ 0 < rrp then some (Real.log ((p : ℝ) / (rrp : ℝ))) else none
  | none => none

/-- Boolean definedness of a target, matching `logTarget … ≠ none`. -/
def targetDefined (p? : Option ℚ) (rrp : ℚ) : Bool :=
  match p? with
  | some p => decide (0 < p) && decide (0 < rrp)
  | none => false

/-- The centre/half-width parameters of the four forward milestones. -/
def Horizon.milestone : Horizon → ℤ × ℤ
  | .h6m => (180, 30)
  | .h1yr => (365, 30)
  | .h2yr => (730, 30)
  | .h3yr => (1095, 30)

/-- Number of defined forward targets for one set. -/
def targetCount (s : SetRow) (ss : List Snapshot) : ℕ :=
  [Horizon.h6m, Horizon.h1yr, Horizon.h2yr, Horizon.h3yr].countP fun h =>
    targetDefined (milestonePrice ss s.exitDate h.milestone.1 h.milestone.2) s.rrp

/-- Embeds `good` for 4 defined targets, `partial` for 1–3, `insufficient` for 0. -/
def dataQualityTag (n : ℕ) : String :=
  if n = 4 then "good" else if 1 ≤ n then "partial" else "insufficient"

/-- One record of the `results` list in `compute_milestone_prices`. -/
structure TrainRow where
  setNum : String
  exitDate : ℤ
  rrp : ℚ
  priceAtRetirement : Option ℚ
  price6m : Option ℚ
  price1yr : Option ℚ
  price2yr : Option ℚ
  price3yr : Option ℚ
  dataQuality : String
  snapshotCount : ℕ
  deriving DecidableEq

/-- Builds the record for one set from its (nonempty) snapshots. -/
def mkTrainRow (s : SetRow) (ss : List Snapshot) : TrainRow where
  setNum := s.setNum
  exitDate := s.exitDate
  rrp := s.rrp
  priceAtRetirement := milestonePrice ss s.exitDate 0 15
  price6m := milestonePrice ss s.exitDate 180 30
  price1yr := milestonePrice ss s.exitDate 365 30
  price2yr := milestonePrice ss s.exitDate 730 30
  price3yr := milestonePrice ss s.exitDate 1095 30
  dataQuality := dataQualityTag (targetCount s ss)
  snapshotCount := ss.length

/-- Embeds `compute_milestone_prices`: iterate the sets, skipping (`continue`) any set
whose snapshot selection is empty before computing milestones or quality. -/
def computeMilestonePrices (sets : List SetRow) (snaps : List Snapshot) : List TrainRow :=
  sets.filterMap fun s =>
    let ss := snapsFor snaps s.setNum
    if ss.isEmpty then none else some (mkTrainRow s ss)

/-- The `set_num` deduplication in `upsert_training_data` (keep first seen). -/
def dedupBySetNum : List TrainRow → List String → List TrainRow
  | [], _ => []
  | r :: rs, seen =>
    if seen.contains r.setNum then dedupBySetNum rs seen
    else r :: dedupBySetNum rs (r.setNum :: seen)

/-- Embeds `upsert_training_data`: keep only `good`/`partial` rows, deduplicate by
`set_num`; the surviving records are what is written to
`investment_training_data`. -/
def upsertTrainingData (rows : List TrainRow) : List TrainRow :=
  dedupBySetNum
    (rows.filter fun r => r.dataQuality == "good" || r.dataQuality == "partial") []

/-! Section: `build_training_data.winsorise_targets` -/

/-- Embeds `config.WINSOR_LOW`. -/
def WINSOR_LOW : ℚ := 2/100

/-- Embeds `config.WINSOR_HIGH`. -/
def WINSOR_HIGH : ℚ := 98/100

/-- pandas `Series.quantile` with the default linear interpolation: position
`q·(n−1)` in the sorted values, interpolating between the two neighbours. -/
def quantileLinear (xs : List ℚ) (q : ℚ) : ℚ :=
  let s := sortQ xs
  let pos : ℚ := q * ((xs.length : ℚ) - 1)
  let i : ℤ := ⌊pos⌋
  let frac : ℚ := pos - (i : ℚ)
  s.getD i.toNat 0 + frac * (s.getD (i.toNat + 1) 0 - s.getD i.toNat 0)

/-- pandas `Series.clip(lower=lo, upper=hi)` on one value. -/
def clipValue (lo hi v : ℚ) : ℚ := if v < lo then lo else if hi < v then hi else v

/-- Embeds `winsorise_targets` on one target column: skip when fewer than 10 non-null
values, otherwise clip every value to the column's own 2nd/98th linear
interpolation percentiles (nulls pass through untouched). -/
def winsoriseColumn (col : List (Option ℚ)) : List (Option ℚ) :=
  let valid := col.filterMap id
  if valid.length < 10 then col
  else
    let lo := quantileLinear valid WINSOR_LOW
    let hi := quantileLinear valid WINSOR_HIGH
    col.map (Option.map fun v => clipValue lo hi v)

/-! Section: Missing-value handling: `train_models.train_for_horizon` vs
`score_sets.score_sets` -/

/-- pandas `Series.median()` of a nullable column: skips nulls, null when no
value remains. -/
def colMedianNonNull (col : List (Option ℚ)) : Option ℚ :=
  let vals := col.filterMap id
  if vals.isEmpty then none else some (ratMedian vals)

/-- Training-time `X[col] = X[col].fillna(X[col].median())`: nulls become the
column's non-null median (a no-op when the whole column is null). -/
def trainImputeColumn (col : List (Option ℚ)) : List (Option ℚ) :=
  match colMedianNonNull col with
  | none => col
  | some m => col.map fun v => some (v.getD m)

/-- Scoring-time `X = X.fillna(0)` just before `model.predict`. -/
def scoreFillna (col : List (Option ℚ)) : List (Option ℚ) :=
  col.map fun v => some (v.getD 0)

/-! Section: Price-trajectory features: `engineer_features.compute_price_trajectory_features`
(training) vs `score_sets.compute_active_trajectory_features` (scoring) -/

/-- The slope coefficient of `np.polyfit(x, y, 1)` — the least-squares line fit
in normal-equation form. -/
def lsSlope (pts : List (ℚ × ℚ)) : ℚ :=
  let n : ℚ := pts.length
  let sx := (pts.map Prod.fst).sum
  let sy := (pts.map Prod.snd).sum
  let sxy := (pts.map fun p => p.1 * p.2).sum
  let sxx := (pts.map fun p => p.1 ^ 2).sum
  (n * sxy - sx * sy) / (n * sxx - sx ^ 2)

/-- The least-squares slope written as centred covariance over variance — the
spec's formulation. -/
def covSlope (pts : List (ℚ × ℚ)) : ℚ :=
  let mx := ratMean (pts.map Prod.fst)
  let my := ratMean (pts.map Prod.snd)
  ((pts.map fun p => (p.1 - mx) * (p.2 - my)).sum) /
    ((pts.map fun p => (p.1 - mx) ^ 2).sum)

/-- Training window: observations strictly after retirement, within 90 days. -/
def post90 (s : List Snapshot) (exit : ℤ) : List Snapshot :=
  s.filter fun t => decide (exit < t.date ∧ t.date ≤ exit + 90)

/-- Training window: observations strictly after retirement, within 180 days. -/
def post180 (s : List Snapshot) (exit : ℤ) : List Snapshot :=
  s.filter fun t => decide (exit < t.date ∧ t.date ≤ exit + 180)

/-- Training-time `price_momentum_90d`: with ≥ 3 post-retirement observations
and non-constant day offsets, the raw `np.polyfit(days, prices, 1)` slope —
not divided by anything. -/
def trainMomentum (s : List Snapshot) (exit : ℤ) : Option ℚ :=
  let w := post90 s exit
  if 3 ≤ w.length then
    let days := w.map fun t => ((t.date - exit : ℤ) : ℚ)
    if 0 < ratVarPop days then some (lsSlope (days.zip (w.map Snapshot.price))) else none
  else none

/-- Training-time `price_volatility_180d`: the raw sample standard deviation of
the 180-day post-retirement prices — not divided by the mean. -/
noncomputable def trainVolatility (s : List Snapshot) (exit : ℤ) : Option ℝ :=
  let w := post180 s exit
  if 3 ≤ w.length then some (ratStd (w.map Snapshot.price)) else none

/-- Embeds `group.sort_values("date")` for one set's snapshots. -/
def sortSnapsByDate (s : List Snapshot) : List Snapshot :=
  List.insertionSort (fun a b => a.date ≤ b.date) s

/-- Scoring-time window: prices within `days` of the most recent observation,
in date order. -/
def recentPrices (s : List Snapshot) (days : ℤ) : List ℚ :=
  match ((sortSnapsByDate s).map Snapshot.date).max? with
  | none => []
  | some mx =>
    ((sortSnapsByDate s).filter fun t => decide (mx - days ≤ t.date)).map Snapshot.price

/-- Scoring-time `price_momentum_90d`: with ≥ 2 recent observations, the
least-squares slope of price against the observation index (`np.arange`),
divided by the window's mean price (`0` when the mean is not positive). -/
def scoreMomentum (s : List Snapshot) : Option ℚ :=
  let recent := recentPrices s 90
  if 2 ≤ recent.length then
    some (if 0 < ratMean recent then
      lsSlope (((List.range recent.length).map fun i => (Nat.cast i : ℚ)).zip recent) /
        ratMean recent
    else 0)
  else none

/-- Scoring-time `price_volatility_180d`: sample standard deviation of the
last-180-day prices divided by their mean (`0` when the mean is not
positive). -/
noncomputable def scoreVolatility (s : List Snapshot) : Option ℝ :=
  let recent := recentPrices s 180
  if 2 ≤ recent.length then
    some (if 0 < ratMean recent then ratStd recent / ((ratMean recent : ℚ) : ℝ) else 0)
  else none

/-! Section: `score_sets` — confidence, percentile ranks and the composite score -/

/-- Embeds `config.SCORE_WEIGHTS["appreciation_1yr"]`. -/
def W_APPRECIATION : ℚ := 30/100

/-- Embeds `config.SCORE_WEIGHTS["confidence_1yr"]`. -/
def W_CONFIDENCE : ℚ := 25/100

/-- Embeds `config.SCORE_WEIGHTS["expected_profit_1yr"]`. -/
def W_EXPECTED_PROFIT : ℚ := 25/100

/-- Embeds `config.SCORE_WEIGHTS["risk_adjusted"]`. -/
def W_RISK_ADJUSTED : ℚ := 20/100

/-- Embeds `score_sets.compute_confidence`: `1 / (1 + |p75 − p25|)` on the log-space
quantile predictions. -/
def computeConfidence (p25 p75 : ℚ) : ℚ := 1 / (1 + |p75 - p25|)

/-- pandas `Series.rank(pct=True)` of one value within a column: the average
ordinal rank of its tie group divided by the column length. -/
def rankPct (vals : List ℚ) (v : ℚ) : ℚ :=
  (((vals.countP fun w => decide (w < v)) : ℚ) +
    (((vals.countP fun w => decide (w = v)) : ℚ) + 1) / 2) / (vals.length : ℚ)

/-- The per-item ingredients of the composite score (for a batch where the
1yr horizon scored): launch price, predicted 1yr appreciation (%), and 1yr
confidence. -/
structure PredRow where
  rrp : ℚ
  app : ℚ
  conf : ℚ
  deriving DecidableEq

/-- Embeds `expected_profit_1yr_gbp = rrp * (predicted_1yr_appreciation / 100)`. -/
def expectedProfit (r : PredRow) : ℚ := r.rrp * (r.app / 100)

/-- Embeds `risk_adjusted_score = app * conf if app else 0`. -/
def riskAdjusted (r : PredRow) : ℚ := if r.app = 0 then 0 else r.app * r.conf

/-- The composite `investment_score` of item `i` over the scored batch:
percentile-rank the appreciation / expected-profit / risk-adjusted columns,
take the confidence value itself, weight, and scale by 10. -/
def investmentScore (batch : List PredRow) (i : ℕ) : ℚ :=
  let r := batch.getD i ⟨0, 0, 0⟩
  (W_APPRECIATION * rankPct (batch.map PredRow.app) r.app
    + W_CONFIDENCE * r.conf
    + W_EXPECTED_PROFIT * rankPct (batch.map expectedProfit) (expectedProfit r)
    + W_RISK_ADJUSTED * rankPct (batch.map riskAdjusted) (riskAdjusted r)) * 10

/-! Section: `validate_model.run_quantile_calibration` -/

/-- The out-of-sample actuals and quantile predictions of one CV fold. -/
structure CalFold where
  actuals : List ℚ
  p25s : List ℚ
  p50s : List ℚ
  p75s : List ℚ

/-- Embeds `(actuals < preds).mean()` — the fraction of pairwise strict
"actual below prediction" events. -/
def belowRate (acts preds : List ℚ) : ℚ :=
  (((acts.zip preds).countP fun p => decide (p.1 < p.2)) : ℚ) / (acts.length : ℚ)

/-- The aggregate coverage rate for one quantile column: all folds' lists are
pooled by concatenation (the `all_actuals.extend(...)` loop) and the rate is
taken over the pool. -/
def aggBelow (folds : List CalFold) (proj : CalFold → List ℚ) : ℚ :=
  belowRate ((folds.map CalFold.actuals).flatten) ((folds.map proj).flatten)

/-- The `calibration_assessment` trichotomy over the three per-quantile
absolute calibration errors. -/
def assessCalibration (e25 e50 e75 : ℚ) : String :=
  if max (max e25 e50) e75 < 10/100 then "well_calibrated"
  else if max (max e25 e50) e75 < 15/100 then "moderately_calibrated"
  else "poorly_calibrated"

/-- The overall calibration classification of a horizon from its folds. -/
def calibrationAssessment (folds : List CalFold) : String :=
  assessCalibration (|aggBelow folds CalFold.p25s - 1/4|)
    (|aggBelow folds CalFold.p50s - 1/2|) (|aggBelow folds CalFold.p75s - 3/4|)

/-! Section: `score_sets.load_models` and the per-horizon structure of `score_sets` -/

/-- Which model artifacts exist on disk (`MODELS_DIR`) per horizon: the
feature-name list and the three pickled quantile regressors. -/
structure ModelFiles where
  featuresFile : Horizon → Bool
  p25File : Horizon → Bool
  p50File : Horizon → Bool
  p75File : Horizon → Bool

/-- Embeds `load_models`: a horizon enters the loaded dict iff its feature list
exists and all three quantile files exist (`len(horizon_models) == 3`). -/
def horizonEnabled (mf : ModelFiles) (h : Horizon) : Bool :=
  mf.featuresFile h && (mf.p25File h && mf.p50File h && mf.p75File h)

/-- The fields of one scoreable item that `score_sets` reads. -/
structure ScoreItem where
  rrp : ℚ
  pieces : ℚ
  themeN : ℚ
  deriving DecidableEq

/-- One horizon's trained quantile triplet, abstractly: each pickled model is
a log-space prediction function of the item. -/
structure QuantilePreds where
  p25 : ScoreItem → ℝ
  p50 : ScoreItem → ℝ
  p75 : ScoreItem → ℝ

/-- Embeds `(exp(log_value) − 1) × 100`. -/
noncomputable def logToPct (x : ℝ) : ℝ := (Real.exp x - 1) * 100

/-- Embeds `rrp × exp(log_value)`. -/
noncomputable def logToPrice (rrp : ℚ) (x : ℝ) : ℝ := (rrp : ℝ) * Real.exp x

/-- Embeds `compute_confidence` in the scorer's real-valued prediction space. -/
noncomputable def confidenceR (p25 p75 : ℝ) : ℝ := 1 / (1 + |p75 - p25|)

/-- The five per-horizon fields written for an enabled horizon. -/
structure HorizonOut where
  appreciation : ℝ
  price : ℝ
  p25pct : ℝ
  p75pct : ℝ
  confidence : ℝ

/-- The per-horizon block of `score_sets`: convert the three log predictions
to percentages, price and confidence. -/
noncomputable def mkHorizonOut (m : QuantilePreds) (it : ScoreItem) : HorizonOut where
  appreciation := logToPct (m.p50 it)
  price := logToPrice it.rrp (m.p50 it)
  p25pct := logToPct (m.p25 it)
  p75pct := logToPct (m.p75 it)
  confidence := confidenceR (m.p25 it) (m.p75 it)

/-- One `investment_predictions` record: per-horizon fields (null when the
horizon is not loaded), the derived profit/risk fields, and the
composite-score block outputs (null when that block does not run). -/
structure PredOut where
  perHorizon : Horizon → Option HorizonOut
  expectedProfit1yr : Option ℝ
  expectedProfit3yr : Option ℝ
  riskAdjusted : ℝ
  investmentScore : Option ℝ
  riskFactors : Option (List String)

open Classical in
/-- Embeds `assess_risk_factors`, in evaluation order. -/
noncomputable def assessRiskFactors (rrp pieces themeN : ℚ) (app1yr conf1yr : Option ℝ) :
    List String :=
  (if 200 < rrp then ["high_rrp"] else []) ++
  (if pieces < 100 ∧ 30 < rrp then ["low_piece_count"] else []) ++
  (if themeN ≠ 0 ∧ themeN < 5 then ["thin_theme_data"] else []) ++
  (match app1yr with
    | some a => if a < 0 then ["negative_forecast"] else []
    | none => []) ++
  (match conf1yr with
    | some c => if c < 3/10 then ["high_uncertainty"] else []
    | none => [])

open Classical in
/-- pandas `rank(pct=True)` over the real-valued prediction columns. -/
noncomputable def rankPctR (vals : List ℝ) (v : ℝ) : ℝ :=
  (((vals.countP fun w => decide (w < v)) : ℝ) +
    (((vals.countP fun w => decide (w = v)) : ℝ) + 1) / 2) / (vals.length : ℝ)

open Classical in
/-- The per-item record before the batch-level composite pass: per-horizon
predictions for loaded horizons, `expected_profit_{1yr,3yr}_gbp` guarded on
the corresponding key's presence, and `risk_adjusted_score` from the 1yr
values with `.get` defaults (`0`, `0.5`). -/
noncomputable def basePred (mf : ModelFiles) (models : Horizon → QuantilePreds)
    (it : ScoreItem) : PredOut where
  perHorizon := fun h =>
    if horizonEnabled mf h then some (mkHorizonOut (models h) it) else none
  expectedProfit1yr :=
    if horizonEnabled mf Horizon.h1yr then
      some ((it.rrp : ℝ) * (logToPct ((models Horizon.h1yr).p50 it) / 100))
    else none
  expectedProfit3yr :=
    if horizonEnabled mf Horizon.h3yr then
      some ((it.rrp : ℝ) * (logToPct ((models Horizon.h3yr).p50 it) / 100))
    else none
  riskAdjusted :=
    (fun app conf => if app = 0 then 0 else app * conf)
      (if horizonEnabled mf Horizon.h1yr then logToPct ((models Horizon.h1yr).p50 it) else 0)
      (if horizonEnabled mf Horizon.h1yr then
        confidenceR ((models Horizon.h1yr).p25 it) ((models Horizon.h1yr).p75 it)
      else 1/2)
  investmentScore := none
  riskFactors := none

open Classical in
/-- The `i`-th output record of `score_sets.score_sets`: the composite-score
block runs only when the prediction batch is nonempty and the
`predicted_1yr_appreciation` column exists, i.e. the 1yr horizon is loaded;
it percentile-ranks the 1yr columns across the batch, attaches the weighted
composite score and the advisory risk factors. -/
noncomputable def scoreItem (mf : ModelFiles) (models : Horizon → QuantilePreds)
    (batch : List ScoreItem) (i : ℕ) : PredOut :=
  let it := batch.getD i ⟨0, 0, 0⟩
  let base := basePred mf models it
  if batch.isEmpty = false ∧ horizonEnabled mf Horizon.h1yr = true then
    let apps := batch.map fun j => logToPct ((models Horizon.h1yr).p50 j)
    let profits := batch.map fun j => (j.rrp : ℝ) * (logToPct ((models Horizon.h1yr).p50 j) / 100)
    let risks := batch.map fun j => (basePred mf models j).riskAdjusted
    let app := logToPct ((models Horizon.h1yr).p50 it)
    let conf := confidenceR ((models Horizon.h1yr).p25 it) ((models Horizon.h1yr).p75 it)
    let score :=
      ((W_APPRECIATION : ℝ) * rankPctR apps app
        + (W_CONFIDENCE : ℝ) * conf
        + (W_EXPECTED_PROFIT : ℝ) * rankPctR profits ((it.rrp : ℝ) * (app / 100))
        + (W_RISK_ADJUSTED : ℝ) * rankPctR risks base.riskAdjusted) * 10
    { base with
        investmentScore := some score,
        riskFactors := some (assessRiskFactors it.rrp it.pieces it.themeN (some app) (some conf)) }
  else base

/-- All twelve model files present. -/
def mfAllFiles : ModelFiles := ⟨fun _ => true, fun _ => true, fun _ => true, fun _ => true⟩

/-- Same as `mfAllFiles` except the 1yr feature-name list is missing. -/
def mfNo1yrFeatures : ModelFiles :=
  ⟨fun h => match h with | Horizon.h1yr => false | _ => true,
    fun _ => true, fun _ => true, fun _ => true⟩

/-- Same as `mfAllFiles` except the 6m feature-name list is missing. -/
def mfNo6mFeatures : ModelFiles :=
  ⟨fun h => match h with | Horizon.h6m => false | _ => true,
    fun _ => true, fun _ => true, fun _ => true⟩

/-- Constant-zero models, for concrete instantiations. -/
def zeroModels : Horizon → QuantilePreds := fun _ => ⟨fun _ => 0, fun _ => 0, fun _ => 0⟩

lemma ratMean_perm {xs ys : List ℚ} (h : xs.Perm ys) : ratMean xs = ratMean ys := by
  unfold ratMean
  rw [h.sum_eq, h.length_eq]

lemma sortQ_perm {xs ys : List ℚ} (h : xs.Perm ys) : sortQ xs = sortQ ys := by
  unfold sortQ
  exact List.eq_of_perm_of_sorted
    ((List.perm_insertionSort _ xs).trans (h.trans (List.perm_insertionSort _ ys).symm))
    (List.sorted_insertionSort _ xs) (List.sorted_insertionSort _ ys)

lemma ratMedian_perm {xs ys : List ℚ} (h : xs.Perm ys) : ratMedian xs = ratMedian ys := by
  unfold ratMedian
  rw [sortQ_perm h, h.length_eq]

lemma ratVar_perm {xs ys : List ℚ} (h : xs.Perm ys) : ratVar xs = ratVar ys := by
  unfold ratVar
  rw [ratMean_perm h, (h.map _).sum_eq, h.length_eq]

lemma ratStd_perm {xs ys : List ℚ} (h : xs.Perm ys) : ratStd xs = ratStd ys := by
  unfold ratStd
  rw [ratVar_perm h]

lemma themePrior_perm (h : Horizon) {df df' : List FeatRow} (hp : df.Perm df')
    (t : String) (exit : ℤ) : (themePrior h df t exit).Perm (themePrior h df' t exit) := by
  unfold themePrior sortByExit
  exact ((List.perm_insertionSort _ df).trans
    (hp.trans (List.perm_insertionSort _ df').symm)).filter _

lemma themePrior_append_excluded (h : Horizon) (df : List FeatRow) (t : String) (exit : ℤ)
    (y : FeatRow) (hy : ¬ (y.theme = some t ∧ y.exitDate < exit ∧ (y.target h).isSome)) :
    (themePrior h (df ++ [y]) t exit).Perm (themePrior h df t exit) := by
  have h1 : (themePrior h (df ++ [y]) t exit).Perm
      ((df ++ [y]).filter fun r =>
        decide (r.theme = some t ∧ r.exitDate < exit ∧ (r.target h).isSome)) := by
    unfold themePrior sortByExit
    exact (List.perm_insertionSort _ _).filter _
  have h2 : ((df ++ [y]).filter fun r =>
      decide (r.theme = some t ∧ r.exitDate < exit ∧ (r.target h).isSome)) =
      (df.filter fun r =>
        decide (r.theme = some t ∧ r.exitDate < exit ∧ (r.target h).isSome)) := by
    rw [List.filter_append]
    simp [List.filter, decide_eq_true_eq, hy]
  have h3 : (df.filter fun r =>
      decide (r.theme = some t ∧ r.exitDate < exit ∧ (r.target h).isSome)).Perm
      (themePrior h df t exit) := by
    unfold themePrior sortByExit
    exact ((List.perm_insertionSort _ df).filter _).symm
  exact (h1.trans (h2 ▸ List.Perm.refl _)).trans h3

/-- Claim C1 — leakage safety of the theme-historical features.  Every row of
the lookback pool has the same theme and a strictly earlier retirement date,
and appending any row whose retirement date is `≥` the current row's
(whatever its theme or targets) leaves the current row's theme-historical
features unchanged at every horizon. -/
theorem theme_features_leakage_safe (h : Horizon) (df : List FeatRow) (x y : FeatRow)
    (hy : x.exitDate ≤ y.exitDate) :
    computeThemeHistorical h (df ++ [y]) x = computeThemeHistorical h df x ∧
    ∀ t, x.theme = some t →
      ∀ r ∈ themePrior h df t x.exitDate, r.theme = x.theme ∧ r.exitDate < x.exitDate := by
  constructor
  · unfold computeThemeHistorical
    match hx : x.theme with
    | none => rfl
    | some t =>
      have hexcl : ¬ (y.theme = some t ∧ y.exitDate < x.exitDate ∧ (y.target h).isSome) := by
        rintro ⟨-, hlt, -⟩
        exact absurd hy (not_le.mpr hlt)
      have hperm := themePrior_append_excluded h df t x.exitDate y hexcl
      have hvals : ((themePrior h (df ++ [y]) t x.exitDate).filterMap
          fun r => r.target h).Perm
          ((themePrior h df t x.exitDate).filterMap fun r => r.target h) :=
        hperm.filterMap _
      simp only
      rw [hperm.length_eq, ratMean_perm hvals, ratMedian_perm hvals, ratStd_perm hvals]
  · intro t hxt r hr
    unfold themePrior at hr
    have := List.of_mem_filter hr
    have hprops := of_decide_eq_true this
    exact ⟨hprops.1.trans hxt.symm, hprops.2.1⟩

/-- Witness for C1 on concrete data: two same-theme rows, the later one
(`exit 100`) joined by an even-later row (`exit 150`); the features of the
`exit 100` row are unchanged and its pool only contains strictly earlier rows. -/
theorem theme_features_leakage_safe_witness :
    computeThemeHistorical .h1yr
        ([⟨some "Icons", 50, none, some 1, none, none⟩] ++
          [⟨some "Icons", 150, none, some 2, none, none⟩])
        ⟨some "Icons", 100, none, some 3, none, none⟩ =
      computeThemeHistorical .h1yr [⟨some "Icons", 50, none, some 1, none, none⟩]
        ⟨some "Icons", 100, none, some 3, none, none⟩ ∧
    ∀ t, (some "Icons" : Option String) = some t →
      ∀ r ∈ themePrior .h1yr [⟨some "Icons", 50, none, some 1, none, none⟩] t 100,
        r.theme = some "Icons" ∧ r.exitDate < 100 :=
  theme_features_leakage_safe .h1yr [⟨some "Icons", 50, none, some 1, none, none⟩]
    ⟨some "Icons", 100, none, some 3, none, none⟩
    ⟨some "Icons", 150, none, some 2, none, none⟩ (by norm_num)

/-- Claim C3, counterexample: a (row, horizon) pair with exactly one qualifying
prior same-theme item.  The claim says all four theme-historical features are
null, but the code appends `len(prior)` for the sample-size feature, so it is
the number `1`, not null (only mean/median/std are null). -/
theorem theme_features_below_min_counterexample :
    (themePrior .h1yr [⟨some "Icons", 50, none, some 1, none, none⟩] "Icons" 100).length < 3 ∧
    (computeThemeHistorical .h1yr [⟨some "Icons", 50, none, some 1, none, none⟩]
        ⟨some "Icons", 100, none, some 3, none, none⟩).sampleSize = some 1 ∧
    some 1 ≠ (none : Option ℕ) := by
  refine ⟨by decide, ?_, by decide⟩
  rfl

/-- Claim C3 as amended: with fewer than 3 qualifying prior same-theme items,
the mean, median and standard-deviation features are null, while the
sample-size feature holds the actual count of qualifying prior items. -/
theorem theme_features_below_min_prior (h : Horizon) (df : List FeatRow) (x : FeatRow)
    (t : String) (hx : x.theme = some t)
    (hlt : (themePrior h df t x.exitDate).length < 3) :
    computeThemeHistorical h df x =
      ⟨none, none, none, some (themePrior h df t x.exitDate).length⟩ := by
  unfold computeThemeHistorical
  rw [hx]
  simp only [if_neg (not_le.mpr hlt)]

/-- Witness for the amended C3 at the concrete one-prior-item input. -/
theorem theme_features_below_min_prior_witness :
    computeThemeHistorical .h1yr [⟨some "Icons", 50, none, some 1, none, none⟩]
        ⟨some "Icons", 100, none, some 3, none, none⟩ =
      ⟨none, none, none,
        some (themePrior .h1yr [⟨some "Icons", 50, none, some 1, none, none⟩]
          "Icons" 100).length⟩ :=
  theme_features_below_min_prior .h1yr [⟨some "Icons", 50, none, some 1, none, none⟩]
    ⟨some "Icons", 100, none, some 3, none, none⟩ "Icons" rfl (by decide)

lemma logTarget_isSome (p? : Option ℚ) (rrp : ℚ) :
    (logTarget p? rrp).isSome = targetDefined p? rrp := by
  cases p? with
  | none => rfl
  | some p =>
    by_cases h : 0 < p ∧ 0 < rrp
    · simp [logTarget, targetDefined, h.1, h.2]
    · rcases not_and_or.mp h with h' | h' <;>
        simp [logTarget, targetDefined, h, h']

lemma mem_of_mem_dedupBySetNum :
    ∀ {rs : List TrainRow} {seen : List String} {r : TrainRow},
      r ∈ dedupBySetNum rs seen → r ∈ rs := by
  intro rs
  induction rs with
  | nil => intro seen r hr; cases hr
  | cons a as ih =>
    intro seen r hr
    by_cases h : seen.contains a.setNum
    · simp only [dedupBySetNum, if_pos h] at hr
      exact List.mem_cons_of_mem _ (ih hr)
    · simp only [dedupBySetNum, if_neg h] at hr
      rcases List.mem_cons.mp hr with hr | hr
      · exact hr ▸ List.mem_cons_self _ _
      · exact List.mem_cons_of_mem _ (ih hr)

lemma mem_computeMilestonePrices {sets : List SetRow} {snaps : List Snapshot} {r : TrainRow}
    (hr : r ∈ computeMilestonePrices sets snaps) :
    ∃ s ∈ sets, ¬ (snapsFor snaps s.setNum).isEmpty ∧ r = mkTrainRow s (snapsFor snaps s.setNum) := by
  unfold computeMilestonePrices at hr
  rcases List.mem_filterMap.mp hr with ⟨s, hs, hmk⟩
  by_cases hempty : (snapsFor snaps s.setNum).isEmpty
  · simp only [if_pos hempty] at hmk
    cases hmk
  · simp only [if_neg hempty] at hmk
    exact ⟨s, hs, hempty, (Option.some_injective _ hmk).symm⟩

lemma windowSnaps_scenario (nm : String) (e : ℤ) (p1 p2 p3 : ℚ) :
    windowSnaps [⟨nm, e - 10, p1⟩, ⟨nm, e + 5, p2⟩, ⟨nm, e + 20, p3⟩] e 0 15 =
      [⟨nm, e - 10, p1⟩, ⟨nm, e + 5, p2⟩] := by
  have h1 : decide (e + (0 - 15) ≤ e - 10 ∧ e - 10 ≤ e + (0 + 15)) = true := by
    rw [decide_eq_true_eq]
    omega
  have h2 : decide (e + (0 - 15) ≤ e + 5 ∧ e + 5 ≤ e + (0 + 15)) = true := by
    rw [decide_eq_true_eq]
    omega
  have h3 : decide (e + (0 - 15) ≤ e + 20 ∧ e + 20 ≤ e + (0 + 15)) = false := by
    rw [decide_eq_false_iff_not]
    omega
  simp only [windowSnaps, List.filter_cons, List.filter_nil, h1, h2, h3]
  simp

/-- Claim C2 — milestone windows and forward targets.  For each of the five
configured milestones: an observation qualifies exactly when its timestamp lies
in the closed window centred at `exit_date + centre` with the configured
half-width; the milestone price is `some` of the qualifying observations'
median exactly when at least 3 qualify.  Observations at days −10/+5/+20
relative to retirement leave exactly the first two inside the ±15-day window
and a null milestone.  A forward target is `log(price/launch_price)` exactly
when the milestone is defined and both prices are positive. -/
theorem milestone_windows_and_log_targets (snaps : List Snapshot) (exit : ℤ)
    (m : String × ℤ × ℤ) (_hm : m ∈ MILESTONES) :
    (∀ s, s ∈ windowSnaps snaps exit m.2.1 m.2.2 ↔
      s ∈ snaps ∧ |s.date - (exit + m.2.1)| ≤ m.2.2) ∧
    (∀ p, milestonePrice snaps exit m.2.1 m.2.2 = some p ↔
      3 ≤ (windowSnaps snaps exit m.2.1 m.2.2).length ∧
      p = ratMedian ((windowSnaps snaps exit m.2.1 m.2.2).map Snapshot.price)) ∧
    (∀ (nm : String) (e : ℤ) (p1 p2 p3 : ℚ),
      windowSnaps [⟨nm, e - 10, p1⟩, ⟨nm, e + 5, p2⟩, ⟨nm, e + 20, p3⟩] e 0 15 =
        [⟨nm, e - 10, p1⟩, ⟨nm, e + 5, p2⟩] ∧
      milestonePrice [⟨nm, e - 10, p1⟩, ⟨nm, e + 5, p2⟩, ⟨nm, e + 20, p3⟩] e 0 15 = none) ∧
    (∀ (p? : Option ℚ) (rrp : ℚ) (L : ℝ),
      logTarget p? rrp = some L ↔
        ∃ p, p? = some p ∧ 0 < p ∧ 0 < rrp ∧ L = Real.log ((p : ℝ) / (rrp : ℝ))) := by
  refine ⟨?_, ?_, ?_, ?_⟩
  · intro s
    unfold windowSnaps
    rw [List.mem_filter, decide_eq_true_eq]
    constructor
    · rintro ⟨hs, h⟩
      exact ⟨hs, by rw [abs_le]; omega⟩
    · rintro ⟨hs, h⟩
      rw [abs_le] at h
      exact ⟨hs, by omega⟩
  · intro p
    unfold milestonePrice MIN_SNAPSHOTS_PER_WINDOW
    by_cases h : 3 ≤ (windowSnaps snaps exit m.2.1 m.2.2).length
    · simp only [if_pos h, Option.some.injEq]
      exact ⟨fun hp => ⟨h, hp.symm⟩, fun hp => hp.2.symm⟩
    · simp only [if_neg h]
      exact ⟨fun hp => Option.noConfusion hp, fun hp => absurd hp.1 h⟩
  · intro nm e p1 p2 p3
    refine ⟨windowSnaps_scenario nm e p1 p2 p3, ?_⟩
    unfold milestonePrice
    rw [windowSnaps_scenario nm e p1 p2 p3]
    rfl
  · intro p? rrp L
    cases p? with
    | none => simp [logTarget]
    | some p =>
      by_cases h : 0 < p ∧ 0 < rrp
      · simp only [logTarget, if_pos h, Option.some.injEq]
        constructor
        · intro hL
          exact ⟨p, rfl, h.1, h.2, hL.symm⟩
        · rintro ⟨q, hq, -, -, hL⟩
          cases hq
          exact hL.symm
      · simp only [logTarget, if_neg h]
        constructor
        · intro hL; cases hL
        · rintro ⟨q, hq, hq1, hq2, -⟩
          cases hq
          exact absurd ⟨hq1, hq2⟩ h

/-- Witness for C2 at the "6m" milestone and at the −10/+5/+20 scenario with
concrete dates and prices. -/
theorem milestone_windows_and_log_targets_witness :
    windowSnaps [⟨"10294", 0 - 10, 100⟩, ⟨"10294", 0 + 5, 110⟩, ⟨"10294", 0 + 20, 120⟩] 0 0 15 =
      [⟨"10294", 0 - 10, 100⟩, ⟨"10294", 0 + 5, 110⟩] ∧
    milestonePrice [⟨"10294", 0 - 10, 100⟩, ⟨"10294", 0 + 5, 110⟩, ⟨"10294", 0 + 20, 120⟩]
      0 0 15 = none :=
  (milestone_windows_and_log_targets [] 0 ("retirement", 0, 15)
    (by decide)).2.2.1 "10294" 0 100 110 120

/-- Claim C10 — sets with zero price observations are skipped outright: every
produced training record keeps its positive snapshot count (so an
`insufficient` tag only ever lands on a set with at least one observation),
and for any set number with no snapshots, no persisted row carries it. -/
theorem zero_snapshot_sets_produce_no_rows (sets : List SetRow) (snaps : List Snapshot) :
    (∀ r ∈ computeMilestonePrices sets snaps, 1 ≤ r.snapshotCount) ∧
    (∀ r ∈ computeMilestonePrices sets snaps,
      r.dataQuality = "insufficient" → 1 ≤ r.snapshotCount) ∧
    (∀ num, snapsFor snaps num = [] →
      ∀ r ∈ upsertTrainingData (computeMilestonePrices sets snaps), r.setNum ≠ num) := by
  have key : ∀ r ∈ computeMilestonePrices sets snaps, 1 ≤ r.snapshotCount := by
    intro r hr
    obtain ⟨s, -, hne, rfl⟩ := mem_computeMilestonePrices hr
    have : snapsFor snaps s.setNum ≠ [] := by
      intro hnil
      exact hne (by rw [hnil]; rfl)
    have hpos : 0 < (snapsFor snaps s.setNum).length := List.length_pos.mpr this
    exact hpos
  refine ⟨key, fun r hr _ => key r hr, ?_⟩
  intro num hnum r hr hreq
  have hr1 : r ∈ (computeMilestonePrices sets snaps).filter
      (fun r => r.dataQuality == "good" || r.dataQuality == "partial") :=
    mem_of_mem_dedupBySetNum hr
  have hr2 : r ∈ computeMilestonePrices sets snaps := (List.mem_filter.mp hr1).1
  obtain ⟨s, -, hne, rfl⟩ := mem_computeMilestonePrices hr2
  have hsn : s.setNum = num := hreq
  rw [hsn, hnum] at hne
  exact hne rfl

/-- Witness for C10: the one-set batch `"A"` (three observations) yields a
persisted row, and the theorem applied at set number `"B"` (no observations)
shows that row is not `"B"`'s. -/
theorem zero_snapshot_sets_produce_no_rows_witness :
    (mkTrainRow ⟨"A", 0, 10⟩
      (snapsFor [⟨"A", 170, 6⟩, ⟨"A", 175, 8⟩, ⟨"A", 180, 7⟩] "A")).setNum ≠ "B" :=
  (zero_snapshot_sets_produce_no_rows [⟨"A", 0, 10⟩]
    [⟨"A", 170, 6⟩, ⟨"A", 175, 8⟩, ⟨"A", 180, 7⟩]).2.2 "B" rfl _ (by decide)

lemma sortQ_length (xs : List ℚ) : (sortQ xs).length = xs.length :=
  (List.perm_insertionSort _ xs).length_eq

lemma sortQ_getD_mono (xs : List ℚ) {i j : ℕ} (hij : i ≤ j) (hj : j < xs.length) :
    (sortQ xs).getD i 0 ≤ (sortQ xs).getD j 0 := by
  have hs : (sortQ xs).Sorted (· ≤ ·) := List.sorted_insertionSort _ xs
  have hj' : j < (sortQ xs).length := by rw [sortQ_length]; exact hj
  have hi' : i < (sortQ xs).length := lt_of_le_of_lt hij hj'
  rw [List.getD_eq_getElem _ _ hi', List.getD_eq_getElem _ _ hj']
  have h9 := hs.rel_get_of_le (Fin.mk_le_mk.mpr hij : (⟨i, hi'⟩ : Fin (sortQ xs).length) ≤ ⟨j, hj'⟩)
  simpa using h9

lemma quantileLinear_mono (xs : List ℚ) (hxs : xs ≠ []) {q q' : ℚ}
    (hq0 : 0 ≤ q) (hqq' : q ≤ q') (hq'1 : q' ≤ 1) :
    quantileLinear xs q ≤ quantileLinear xs q' := by
  have hn : 0 < xs.length := List.length_pos.mpr hxs
  have hn1nn : (0 : ℚ) ≤ (xs.length : ℚ) - 1 := by
    have h1 : (1 : ℚ) ≤ (xs.length : ℚ) := by exact_mod_cast hn
    linarith
  set n1 : ℚ := (xs.length : ℚ) - 1 with hn1def
  set pos := q * n1 with hposdef
  set pos' := q' * n1 with hpos'def
  have hpos0 : 0 ≤ pos := mul_nonneg hq0 hn1nn
  have hposle : pos ≤ pos' := mul_le_mul_of_nonneg_right hqq' hn1nn
  have hpos'top : pos' ≤ n1 := by
    calc pos' = q' * n1 := rfl
    _ ≤ 1 * n1 := mul_le_mul_of_nonneg_right hq'1 hn1nn
    _ = n1 := one_mul n1
  have hi0 : 0 ≤ ⌊pos⌋ := Int.floor_nonneg.mpr hpos0
  have hi'0 : 0 ≤ ⌊pos'⌋ := Int.floor_nonneg.mpr (le_trans hpos0 hposle)
  have hii' : ⌊pos⌋ ≤ ⌊pos'⌋ := Int.floor_le_floor hposle
  have hi'top : ⌊pos'⌋ ≤ (xs.length : ℤ) - 1 := by
    have h2 : ⌊pos'⌋ ≤ ⌊n1⌋ := Int.floor_le_floor hpos'top
    rwa [hn1def, show ((xs.length : ℚ) - 1) = (((xs.length : ℤ) - 1 : ℤ) : ℚ) by push_cast; ring,
      Int.floor_intCast] at h2
  set k := ⌊pos⌋.toNat with hkdef
  set k' := ⌊pos'⌋.toNat with hk'def
  have hik : (k : ℤ) = ⌊pos⌋ := Int.toNat_of_nonneg hi0
  have hik' : (k' : ℤ) = ⌊pos'⌋ := Int.toNat_of_nonneg hi'0
  have hkk' : k ≤ k' := by omega
  have hk'lt : k' < xs.length := by omega
  have hfrac0 : 0 ≤ pos - (⌊pos⌋ : ℚ) := sub_nonneg.mpr (Int.floor_le pos)
  have hfrac'0 : 0 ≤ pos' - (⌊pos'⌋ : ℚ) := sub_nonneg.mpr (Int.floor_le pos')
  have hfrac1 : pos - (⌊pos⌋ : ℚ) ≤ 1 := by
    have h3 := Int.lt_floor_add_one pos
    push_cast at h3
    linarith
  have hgoalL : quantileLinear xs q =
      (sortQ xs).getD k 0 +
        (pos - (⌊pos⌋ : ℚ)) * ((sortQ xs).getD (k + 1) 0 - (sortQ xs).getD k 0) := rfl
  have hgoalR : quantileLinear xs q' =
      (sortQ xs).getD k' 0 +
        (pos' - (⌊pos'⌋ : ℚ)) * ((sortQ xs).getD (k' + 1) 0 - (sortQ xs).getD k' 0) := rfl
  rw [hgoalL, hgoalR]
  rcases eq_or_lt_of_le hkk' with heq | hlt
  · have hieq : ⌊pos⌋ = ⌊pos'⌋ := by omega
    rw [← heq, ← hieq]
    by_cases hk1 : k + 1 < xs.length
    · have hba : (sortQ xs).getD k 0 ≤ (sortQ xs).getD (k + 1) 0 :=
        sortQ_getD_mono xs (Nat.le_succ k) hk1
      nlinarith [hposle, hba]
    · have hposeq : pos = pos' := by
        have h4 : ((⌊pos⌋ : ℚ)) ≤ pos := Int.floor_le pos
        have h5 : (⌊pos⌋ : ℤ) = (xs.length : ℤ) - 1 := by omega
        rw [h5] at h4
        push_cast at h4
        have h6 : pos' ≤ (xs.length : ℚ) - 1 := hpos'top
        linarith
      rw [hposeq]
  · have hk1lt : k + 1 ≤ k' := hlt
    have hk1n : k + 1 < xs.length := lt_of_le_of_lt hk1lt hk'lt
    have hba : (sortQ xs).getD k 0 ≤ (sortQ xs).getD (k + 1) 0 :=
      sortQ_getD_mono xs (Nat.le_succ k) hk1n
    have hmid : (sortQ xs).getD (k + 1) 0 ≤ (sortQ xs).getD k' 0 :=
      sortQ_getD_mono xs hk1lt hk'lt
    have hleft : (sortQ xs).getD k 0 + (pos - (⌊pos⌋ : ℚ)) *
        ((sortQ xs).getD (k + 1) 0 - (sortQ xs).getD k 0) ≤ (sortQ xs).getD (k + 1) 0 := by
      nlinarith [hfrac0, hfrac1, hba]
    have hright : (sortQ xs).getD k' 0 ≤ (sortQ xs).getD k' 0 + (pos' - (⌊pos'⌋ : ℚ)) *
        ((sortQ xs).getD (k' + 1) 0 - (sortQ xs).getD k' 0) := by
      by_cases hk'1 : k' + 1 < xs.length
      · have hba' : (sortQ xs).getD k' 0 ≤ (sortQ xs).getD (k' + 1) 0 :=
          sortQ_getD_mono xs (Nat.le_succ k') hk'1
        nlinarith [hfrac'0, hba']
      · have hf'0 : pos' - (⌊pos'⌋ : ℚ) = 0 := by
          have h4 : ((⌊pos'⌋ : ℚ)) ≤ pos' := Int.floor_le pos'
          have h5 : (⌊pos'⌋ : ℤ) = (xs.length : ℤ) - 1 := by omega
          have h6 : pos' ≤ (xs.length : ℚ) - 1 := hpos'top
          rw [h5]
          push_cast
          rw [h5] at h4
          push_cast at h4
          linarith
        rw [hf'0]
        ring_nf
        exact le_refl _
    calc (sortQ xs).getD k 0 + (pos - (⌊pos⌋ : ℚ)) *
          ((sortQ xs).getD (k + 1) 0 - (sortQ xs).getD k 0)
        ≤ (sortQ xs).getD (k + 1) 0 := hleft
      _ ≤ (sortQ xs).getD k' 0 := hmid
      _ ≤ _ := hright

lemma clipValue_eq_min_max (lo hi v : ℚ) (h : lo ≤ hi) :
    clipValue lo hi v = min (max v lo) hi := by
  unfold clipValue
  rcases lt_or_le v lo with h1 | h1
  · rw [if_pos h1, max_eq_right h1.le, min_eq_left h]
  · rw [if_neg (not_lt.mpr h1), max_eq_left h1]
    rcases lt_or_le hi v with h2 | h2
    · rw [if_pos h2, min_eq_right h2.le]
    · rw [if_neg (not_lt.mpr h2), min_eq_left h2]

/-- Claim C7, counterexample to idempotence: on the ten-value column
`1, …, 10` the first pass clips to `[1.18, 9.82]`, and a second pass clips the
new boundary values again (to `[1.3276, 9.6724]`), so winsorising twice is not
the same as winsorising once. -/
theorem winsorise_not_idempotent_counterexample :
    winsoriseColumn (winsoriseColumn
      [some 1, some 2, some 3, some 4, some 5, some 6, some 7, some 8, some 9, some 10]) ≠
    winsoriseColumn
      [some 1, some 2, some 3, some 4, some 5, some 6, some 7, some 8, some 9, some 10] := by
  have hfm1 : List.filterMap id
      [some (1:ℚ), some 2, some 3, some 4, some 5, some 6, some 7, some 8, some 9, some 10] =
      [1, 2, 3, 4, 5, 6, 7, 8, 9, 10] := by
    simp [List.filterMap_cons]
  have hlo1 : quantileLinear [1, 2, 3, 4, 5, 6, 7, 8, 9, 10] WINSOR_LOW = 59/50 := by
    norm_num [quantileLinear, sortQ, WINSOR_LOW, List.insertionSort, List.orderedInsert]
  have hhi1 : quantileLinear [1, 2, 3, 4, 5, 6, 7, 8, 9, 10] WINSOR_HIGH = 491/50 := by
    norm_num [quantileLinear, sortQ, WINSOR_HIGH, List.insertionSort, List.orderedInsert,
      show Int.toNat 8 = 8 from rfl]
  have hpass1 : winsoriseColumn
      [some 1, some 2, some 3, some 4, some 5, some 6, some 7, some 8, some 9, some 10] =
      [some (59/50), some 2, some 3, some 4, some 5, some 6, some 7, some 8, some 9,
        some (491/50)] := by
    unfold winsoriseColumn
    rw [hfm1]
    norm_num [hlo1, hhi1, clipValue]
  have hfm2 : List.filterMap id
      [some ((59:ℚ)/50), some 2, some 3, some 4, some 5, some 6, some 7, some 8, some 9,
        some (491/50)] =
      [59/50, 2, 3, 4, 5, 6, 7, 8, 9, 491/50] := by
    simp [List.filterMap_cons]
  have hlo2 : quantileLinear [59/50, 2, 3, 4, 5, 6, 7, 8, 9, 491/50] WINSOR_LOW =
      3319/2500 := by
    norm_num [quantileLinear, sortQ, WINSOR_LOW, List.insertionSort, List.orderedInsert]
  have hhi2 : quantileLinear [59/50, 2, 3, 4, 5, 6, 7, 8, 9, 491/50] WINSOR_HIGH =
      24181/2500 := by
    norm_num [quantileLinear, sortQ, WINSOR_HIGH, List.insertionSort, List.orderedInsert,
      show Int.toNat 8 = 8 from rfl]
  have hpass2 : winsoriseColumn
      [some (59/50), some 2, some 3, some 4, some 5, some 6, some 7, some 8, some 9,
        some (491/50)] =
      [some (3319/2500), some 2, some 3, some 4, some 5, some 6, some 7, some 8, some 9,
        some (24181/2500)] := by
    unfold winsoriseColumn
    rw [hfm2]
    norm_num [hlo2, hhi2, clipValue]
  rw [hpass1, hpass2]
  intro hcontra
  simp only [List.cons.injEq, Option.some.injEq] at hcontra
  exact absurd hcontra.1 (by norm_num)

/-- Claim C7 as amended: each target column is clipped to its own non-null
distribution's 2nd/98th (linear-interpolation) percentiles and skipped below
10 non-null values — but the pass is NOT idempotent: a second application can
clip the boundary values further, because the percentiles of the clipped
column differ from those of the original.  Nulls pass through, the low
percentile never exceeds the high one, every clipped value lands between the
two percentiles, and values already between them are unchanged. -/
theorem winsorise_clips_to_own_percentiles (col : List (Option ℚ)) :
    ((col.filterMap id).length < 10 → winsoriseColumn col = col) ∧
    (10 ≤ (col.filterMap id).length →
      quantileLinear (col.filterMap id) WINSOR_LOW ≤
        quantileLinear (col.filterMap id) WINSOR_HIGH ∧
      (∀ i : ℕ, col[i]? = some none → (winsoriseColumn col)[i]? = some none) ∧
      (∀ (i : ℕ) (v : ℚ), col[i]? = some (some v) →
        (winsoriseColumn col)[i]? =
          some (some (min (max v (quantileLinear (col.filterMap id) WINSOR_LOW))
            (quantileLinear (col.filterMap id) WINSOR_HIGH))) ∧
        quantileLinear (col.filterMap id) WINSOR_LOW ≤
          min (max v (quantileLinear (col.filterMap id) WINSOR_LOW))
            (quantileLinear (col.filterMap id) WINSOR_HIGH) ∧
        min (max v (quantileLinear (col.filterMap id) WINSOR_LOW))
            (quantileLinear (col.filterMap id) WINSOR_HIGH) ≤
          quantileLinear (col.filterMap id) WINSOR_HIGH ∧
        (quantileLinear (col.filterMap id) WINSOR_LOW ≤ v →
          v ≤ quantileLinear (col.filterMap id) WINSOR_HIGH →
          (winsoriseColumn col)[i]? = some (some v)))) := by
  constructor
  · intro hlt
    unfold winsoriseColumn
    simp only [if_pos hlt]
  · intro h10
    have hne : col.filterMap id ≠ [] := by
      intro hnil
      rw [hnil] at h10
      simp at h10
    have hlohi : quantileLinear (col.filterMap id) WINSOR_LOW ≤
        quantileLinear (col.filterMap id) WINSOR_HIGH :=
      quantileLinear_mono (col.filterMap id) hne (by norm_num [WINSOR_LOW])
        (by norm_num [WINSOR_LOW, WINSOR_HIGH]) (by norm_num [WINSOR_HIGH])
    have hbranch : winsoriseColumn col =
        col.map (Option.map fun v =>
          clipValue (quantileLinear (col.filterMap id) WINSOR_LOW)
            (quantileLinear (col.filterMap id) WINSOR_HIGH) v) := by
      unfold winsoriseColumn
      simp only [if_neg (not_lt.mpr h10)]
    refine ⟨hlohi, ?_, ?_⟩
    · intro i hi
      rw [hbranch, List.getElem?_map, hi]
      rfl
    · intro i v hv
      have hclip : clipValue (quantileLinear (col.filterMap id) WINSOR_LOW)
          (quantileLinear (col.filterMap id) WINSOR_HIGH) v =
          min (max v (quantileLinear (col.filterMap id) WINSOR_LOW))
            (quantileLinear (col.filterMap id) WINSOR_HIGH) :=
        clipValue_eq_min_max _ _ v hlohi
      have hval : (winsoriseColumn col)[i]? =
          some (some (min (max v (quantileLinear (col.filterMap id) WINSOR_LOW))
            (quantileLinear (col.filterMap id) WINSOR_HIGH))) := by
        rw [hbranch, List.getElem?_map, hv]
        simp [hclip]
      refine ⟨hval, le_min (le_max_right _ _) hlohi, min_le_right _ _, ?_⟩
      intro hvlo hvhi
      rw [hval, max_eq_left hvlo, min_eq_left hvhi]

/-- Witness for the amended C7 on an eleven-entry column (ten non-null values
`1, …, 10` plus one null): the null is preserved and the value `1` is clipped
to the low percentile. -/
theorem winsorise_clips_to_own_percentiles_witness :
    (winsoriseColumn [some 1, some 2, some 3, some 4, some 5, some 6, some 7, some 8,
      some 9, some 10, none])[10]? = some none ∧
    (winsoriseColumn [some 1, some 2, some 3, some 4, some 5, some 6, some 7, some 8,
      some 9, some 10, none])[0]? =
      some (some (min (max 1 (quantileLinear (List.filterMap id
          [some 1, some 2, some 3, some 4, some 5, some 6, some 7, some 8,
            some 9, some 10, none]) WINSOR_LOW))
        (quantileLinear (List.filterMap id
          [some 1, some 2, some 3, some 4, some 5, some 6, some 7, some 8,
            some 9, some 10, none]) WINSOR_HIGH))) :=
  ⟨(((winsorise_clips_to_own_percentiles _).2
      (by simp [List.filterMap_cons])).2.1) 10 rfl,
   ((((winsorise_clips_to_own_percentiles _).2
      (by simp [List.filterMap_cons])).2.2) 0 1 rfl).1⟩

/-- Claim C4, counterexample: at scoring time a null feature value is not left
in place for the regressor's native missing-value routing — it is replaced
by `0`. -/
theorem scoring_nulls_replaced_counterexample :
    scoreFillna [some 5, none] = [some 5, some 0] ∧
    scoreFillna [some 5, none] ≠ [some 5, none] := by
  exact ⟨rfl, by decide⟩

/-- Claim C4 as amended: the asymmetry exists but is median-vs-zero, not
median-vs-native-routing.  At training time nulls are imputed with the
column's non-null median; at scoring time nulls are replaced by `0` (so no
null ever reaches the regressor there either, and its native missing-value
routing is not exercised). -/
theorem train_impute_median_score_fillna_zero :
    (∀ col : List (Option ℚ), col.filterMap id ≠ [] →
      colMedianNonNull col = some (ratMedian (col.filterMap id))) ∧
    (∀ (col : List (Option ℚ)) (m : ℚ), colMedianNonNull col = some m →
      (∀ i : ℕ, col[i]? = some none → (trainImputeColumn col)[i]? = some (some m)) ∧
      (∀ (i : ℕ) (v : ℚ), col[i]? = some (some v) →
        (trainImputeColumn col)[i]? = some (some v))) ∧
    (∀ col : List (Option ℚ),
      (∀ i : ℕ, col[i]? = some none → (scoreFillna col)[i]? = some (some 0)) ∧
      (∀ (i : ℕ) (v : ℚ), col[i]? = some (some v) → (scoreFillna col)[i]? = some (some v)) ∧
      (∀ o ∈ scoreFillna col, o ≠ none)) := by
  refine ⟨?_, ?_, ?_⟩
  · intro col hne
    unfold colMedianNonNull
    simp only [List.isEmpty_iff]
    rw [if_neg hne]
  · intro col m hm
    have hbranch : trainImputeColumn col = col.map fun v => some (v.getD m) := by
      unfold trainImputeColumn
      rw [hm]
    constructor
    · intro i hi
      rw [hbranch, List.getElem?_map, hi]
      rfl
    · intro i v hv
      rw [hbranch, List.getElem?_map, hv]
      rfl
  · intro col
    refine ⟨?_, ?_, ?_⟩
    · intro i hi
      unfold scoreFillna
      rw [List.getElem?_map, hi]
      rfl
    · intro i v hv
      unfold scoreFillna
      rw [List.getElem?_map, hv]
      rfl
    · intro o ho
      unfold scoreFillna at ho
      rcases List.mem_map.mp ho with ⟨v, -, hv⟩
      rw [← hv]
      exact Option.some_ne_none _

/-- Witness for the amended C4 on the column `[1, 3, null]`: the null is
imputed with the column median at training time and with `0` at scoring
time. -/
theorem train_impute_median_score_fillna_zero_witness :
    (trainImputeColumn [some 1, some 3, none])[2]? =
      some (some (ratMedian [1, 3])) ∧
    (scoreFillna [some 1, some 3, none])[2]? = some (some 0) :=
  ⟨(train_impute_median_score_fillna_zero.2.1 [some 1, some 3, none]
      (ratMedian [1, 3]) rfl).1 2 rfl,
   (train_impute_median_score_fillna_zero.2.2 [some 1, some 3, none]).1 2 rfl⟩

lemma sum_map_sub_mul (pts : List (ℚ × ℚ)) (a b : ℚ) :
    (pts.map fun p => (p.1 - a) * (p.2 - b)).sum =
      (pts.map fun p => p.1 * p.2).sum - a * (pts.map Prod.snd).sum
        - b * (pts.map Prod.fst).sum + (pts.length : ℚ) * (a * b) := by
  induction pts with
  | nil => simp
  | cons p ps ih =>
    simp only [List.map_cons, List.sum_cons, ih, List.length_cons]
    push_cast
    ring

lemma sum_map_sub_sq (pts : List (ℚ × ℚ)) (a : ℚ) :
    (pts.map fun p => (p.1 - a) ^ 2).sum =
      (pts.map fun p => p.1 ^ 2).sum - 2 * a * (pts.map Prod.fst).sum
        + (pts.length : ℚ) * a ^ 2 := by
  induction pts with
  | nil => simp
  | cons p ps ih =>
    simp only [List.map_cons, List.sum_cons, ih, List.length_cons]
    push_cast
    ring

lemma lsSlope_eq_covSlope (pts : List (ℚ × ℚ)) (hne : pts ≠ []) :
    lsSlope pts = covSlope pts := by
  have hn : (0 : ℚ) < (pts.length : ℚ) := by
    have := List.length_pos.mpr hne
    exact_mod_cast this
  have hn0 : (pts.length : ℚ) ≠ 0 := ne_of_gt hn
  unfold lsSlope covSlope ratMean
  dsimp only
  rw [List.length_map, List.length_map, sum_map_sub_mul, sum_map_sub_sq]
  set n : ℚ := (pts.length : ℚ)
  set sx := (pts.map Prod.fst).sum
  set sy := (pts.map Prod.snd).sum
  set sxy := (pts.map fun p => p.1 * p.2).sum
  set sxx := (pts.map fun p => p.1 ^ 2).sum
  have hnum : sxy - sx / n * sy - sy / n * sx + n * (sx / n * (sy / n)) =
      (n * sxy - sx * sy) / n := by
    field_simp
    ring
  have hden : sxx - 2 * (sx / n) * sx + n * (sx / n) ^ 2 =
      (n * sxx - sx ^ 2) / n := by
    field_simp
    ring
  rw [hnum, hden]
  rcases eq_or_ne (n * sxx - sx ^ 2) 0 with h | h
  · rw [h]
    simp
  · rw [div_div_div_eq, mul_comm n (n * sxx - sx ^ 2)]
    rw [mul_div_mul_right _ _ hn0]

/-- Claim C5, counterexample: at training time the 90-day momentum is the raw
least-squares slope, not the slope normalised by the window's mean price.
Observations at days 1/2/3 with prices 2/4/6 give slope 2, while the claimed
normalised value is `2 / 4 = 1/2`. -/
theorem trajectory_momentum_unnormalised_counterexample :
    trainMomentum [⟨"A", 1, 2⟩, ⟨"A", 2, 4⟩, ⟨"A", 3, 6⟩] 0 = some 2 ∧
    lsSlope [(1, 2), (2, 4), (3, 6)] / ratMean [2, 4, 6] = 1/2 ∧
    (2 : ℚ) ≠ 1/2 := by
  refine ⟨?_, ?_, by norm_num⟩
  · norm_num [trainMomentum, post90, lsSlope, ratVarPop, ratMean, List.filter]
  · norm_num [lsSlope, ratMean]

/-- Claim C5 as amended: the least-squares-slope and standard-deviation
formulas hold, but mean-price normalisation happens only at scoring time.
Training momentum is the raw slope of price against days since retirement
(≥ 3 points, non-constant days) and training volatility the raw sample
standard deviation (≥ 3 points); scoring momentum is the slope of price
against observation index divided by the window's mean (≥ 2 points, positive
mean) and scoring volatility the standard deviation divided by the mean. -/
theorem trajectory_momentum_volatility_formulas (s : List Snapshot) (exit : ℤ) :
    (3 ≤ (post90 s exit).length →
      0 < ratVarPop ((post90 s exit).map fun t => ((t.date - exit : ℤ) : ℚ)) →
      trainMomentum s exit = some (covSlope
        (((post90 s exit).map fun t => ((t.date - exit : ℤ) : ℚ)).zip
          ((post90 s exit).map Snapshot.price)))) ∧
    (3 ≤ (post180 s exit).length →
      trainVolatility s exit = some (ratStd ((post180 s exit).map Snapshot.price))) ∧
    (2 ≤ (recentPrices s 90).length → 0 < ratMean (recentPrices s 90) →
      scoreMomentum s = some (covSlope
        (((List.range (recentPrices s 90).length).map fun i => (Nat.cast i : ℚ)).zip
          (recentPrices s 90)) / ratMean (recentPrices s 90))) ∧
    (2 ≤ (recentPrices s 180).length → 0 < ratMean (recentPrices s 180) →
      scoreVolatility s = some (ratStd (recentPrices s 180) /
        ((ratMean (recentPrices s 180) : ℚ) : ℝ))) := by
  refine ⟨?_, ?_, ?_, ?_⟩
  · intro h3 hvar
    unfold trainMomentum
    dsimp only
    rw [if_pos h3, if_pos hvar]
    have hne : (((post90 s exit).map fun t => ((t.date - exit : ℤ) : ℚ)).zip
        ((post90 s exit).map Snapshot.price)) ≠ [] := by
      apply List.length_pos.mp
      rw [List.length_zip, List.length_map, List.length_map, min_self]
      omega
    rw [lsSlope_eq_covSlope _ hne]
  · intro h3
    unfold trainVolatility
    dsimp only
    rw [if_pos h3]
  · intro h2 hmean
    unfold scoreMomentum
    dsimp only
    rw [if_pos h2, if_pos hmean]
    have hne : (((List.range (recentPrices s 90).length).map fun i => (Nat.cast i : ℚ)).zip
        (recentPrices s 90)) ≠ [] := by
      apply List.length_pos.mp
      rw [List.length_zip, List.length_map, List.length_range, min_self]
      omega
    rw [lsSlope_eq_covSlope _ hne]
  · intro h2 hmean
    unfold scoreVolatility
    dsimp only
    rw [if_pos h2, if_pos hmean]

/-- Witness for the amended C5: the raw training slope on the 1/2/3-day,
2/4/6-price data. -/
theorem trajectory_momentum_volatility_formulas_witness :
    trainMomentum [⟨"A", 1, 2⟩, ⟨"A", 2, 4⟩, ⟨"A", 3, 6⟩] 0 =
      some (covSlope
        (((post90 [⟨"A", 1, 2⟩, ⟨"A", 2, 4⟩, ⟨"A", 3, 6⟩] 0).map
            fun t => ((t.date - 0 : ℤ) : ℚ)).zip
          ((post90 [⟨"A", 1, 2⟩, ⟨"A", 2, 4⟩, ⟨"A", 3, 6⟩] 0).map Snapshot.price))) :=
  (trajectory_momentum_volatility_formulas [⟨"A", 1, 2⟩, ⟨"A", 2, 4⟩, ⟨"A", 3, 6⟩] 0).1
    (by decide) (by norm_num [post90, ratVarPop, ratMean, List.filter])

lemma countP_lt_add_countP_eq_le (vals : List ℚ) (v : ℚ) :
    (vals.countP fun w => decide (w < v)) + (vals.countP fun w => decide (w = v)) ≤
      vals.length := by
  induction vals with
  | nil => simp
  | cons x xs ih =>
    rw [List.countP_cons, List.countP_cons, List.length_cons]
    by_cases h1 : x < v
    · have h2 : ¬ (x = v) := fun he => absurd h1 (by rw [he]; exact lt_irrefl v)
      simp [h1, h2]
      omega
    · by_cases h2 : x = v <;> simp [h1, h2] <;> omega

lemma rankPct_pos_le_one (vals : List ℚ) (v : ℚ) (hv : v ∈ vals) :
    0 < rankPct vals v ∧ rankPct vals v ≤ 1 := by
  have hlen : 0 < vals.length := List.length_pos.mpr (List.ne_nil_of_mem hv)
  have hlenq : (0 : ℚ) < (vals.length : ℚ) := by exact_mod_cast hlen
  have hc2 : 1 ≤ vals.countP fun w => decide (w = v) := by
    apply List.countP_pos_iff.mpr
    exact ⟨v, hv, by simp⟩
  have hc2q : (1 : ℚ) ≤ ((vals.countP fun w => decide (w = v)) : ℚ) := by exact_mod_cast hc2
  have hc1q : (0 : ℚ) ≤ ((vals.countP fun w => decide (w < v)) : ℚ) := by positivity
  have hsum := countP_lt_add_countP_eq_le vals v
  have hsumq : ((vals.countP fun w => decide (w < v)) : ℚ) +
      ((vals.countP fun w => decide (w = v)) : ℚ) ≤ (vals.length : ℚ) := by
    exact_mod_cast hsum
  unfold rankPct
  constructor
  · apply div_pos _ hlenq
    linarith
  · rw [div_le_one hlenq]
    linarith

/-- Claim C6 — the composite investment score.  The four configured weights
sum to 1; the confidence `1/(1+|p75−p25|)` lies in `(0, 1]`; the score equals
`10 × (0.30·rank(app) + 0.25·conf + 0.25·rank(profit) + 0.20·rank(risk))`
with percentile ranks over the batch; and the score always lies in
`[0, 10]`. -/
theorem composite_score_formula_and_bounds (batch : List PredRow) (i : ℕ)
    (hi : i < batch.length) (a b : ℚ)
    (hconf : (batch.getD i ⟨0, 0, 0⟩).conf = computeConfidence a b) :
    W_APPRECIATION + W_CONFIDENCE + W_EXPECTED_PROFIT + W_RISK_ADJUSTED = 1 ∧
    (0 < computeConfidence a b ∧ computeConfidence a b ≤ 1) ∧
    investmentScore batch i =
      10 * (W_APPRECIATION * rankPct (batch.map PredRow.app) (batch.getD i ⟨0, 0, 0⟩).app
        + W_CONFIDENCE * (batch.getD i ⟨0, 0, 0⟩).conf
        + W_EXPECTED_PROFIT * rankPct (batch.map expectedProfit)
            (expectedProfit (batch.getD i ⟨0, 0, 0⟩))
        + W_RISK_ADJUSTED * rankPct (batch.map riskAdjusted)
            (riskAdjusted (batch.getD i ⟨0, 0, 0⟩))) ∧
    (0 ≤ investmentScore batch i ∧ investmentScore batch i ≤ 10) := by
  have habs : (0 : ℚ) ≤ |b - a| := abs_nonneg _
  have hconfpos : 0 < computeConfidence a b := by
    unfold computeConfidence
    positivity
  have hconfle : computeConfidence a b ≤ 1 := by
    unfold computeConfidence
    rw [div_le_one (by positivity)]
    linarith
  have hr : batch.getD i ⟨0, 0, 0⟩ ∈ batch := by
    rw [List.getD_eq_getElem _ _ hi]
    exact List.getElem_mem _
  have happ := rankPct_pos_le_one (batch.map PredRow.app) (batch.getD i ⟨0, 0, 0⟩).app
    (List.mem_map_of_mem _ hr)
  have hprofit := rankPct_pos_le_one (batch.map expectedProfit)
    (expectedProfit (batch.getD i ⟨0, 0, 0⟩)) (List.mem_map_of_mem _ hr)
  have hrisk := rankPct_pos_le_one (batch.map riskAdjusted)
    (riskAdjusted (batch.getD i ⟨0, 0, 0⟩)) (List.mem_map_of_mem _ hr)
  have hcb : 0 < (batch.getD i ⟨0, 0, 0⟩).conf ∧ (batch.getD i ⟨0, 0, 0⟩).conf ≤ 1 := by
    rw [hconf]
    exact ⟨hconfpos, hconfle⟩
  refine ⟨by norm_num [W_APPRECIATION, W_CONFIDENCE, W_EXPECTED_PROFIT, W_RISK_ADJUSTED],
    ⟨hconfpos, hconfle⟩, by unfold investmentScore; ring, ?_, ?_⟩
  · unfold investmentScore
    dsimp only
    have hw : (0:ℚ) < W_APPRECIATION ∧ (0:ℚ) < W_CONFIDENCE ∧
        (0:ℚ) < W_EXPECTED_PROFIT ∧ (0:ℚ) < W_RISK_ADJUSTED := by
      refine ⟨?_, ?_, ?_, ?_⟩ <;> norm_num [W_APPRECIATION, W_CONFIDENCE,
        W_EXPECTED_PROFIT, W_RISK_ADJUSTED]
    linarith [mul_pos hw.1 happ.1, mul_pos hw.2.1 hcb.1,
      mul_pos hw.2.2.1 hprofit.1, mul_pos hw.2.2.2 hrisk.1]
  · unfold investmentScore
    dsimp only
    have hwv : W_APPRECIATION = 30/100 ∧ W_CONFIDENCE = 25/100 ∧
        W_EXPECTED_PROFIT = 25/100 ∧ W_RISK_ADJUSTED = 20/100 :=
      ⟨rfl, rfl, rfl, rfl⟩
    rw [hwv.1, hwv.2.1, hwv.2.2.1, hwv.2.2.2]
    linarith [happ.2, hprofit.2, hrisk.2, hcb.2, happ.1, hprofit.1, hrisk.1, hcb.1]

/-- Witness for C6 on a singleton batch with confidence built from a zero-wide
quantile interval. -/
theorem composite_score_formula_and_bounds_witness :
    W_APPRECIATION + W_CONFIDENCE + W_EXPECTED_PROFIT + W_RISK_ADJUSTED = 1 ∧
    (0 < computeConfidence 0 0 ∧ computeConfidence 0 0 ≤ 1) ∧
    investmentScore [(⟨10, 5, computeConfidence 0 0⟩ : PredRow)] 0 =
      10 * (W_APPRECIATION * rankPct ([(⟨10, 5, computeConfidence 0 0⟩ : PredRow)].map PredRow.app)
          ([(⟨10, 5, computeConfidence 0 0⟩ : PredRow)].getD 0 ⟨0, 0, 0⟩).app
        + W_CONFIDENCE * ([(⟨10, 5, computeConfidence 0 0⟩ : PredRow)].getD 0 ⟨0, 0, 0⟩).conf
        + W_EXPECTED_PROFIT * rankPct ([(⟨10, 5, computeConfidence 0 0⟩ : PredRow)].map expectedProfit)
            (expectedProfit ([(⟨10, 5, computeConfidence 0 0⟩ : PredRow)].getD 0 ⟨0, 0, 0⟩))
        + W_RISK_ADJUSTED * rankPct ([(⟨10, 5, computeConfidence 0 0⟩ : PredRow)].map riskAdjusted)
            (riskAdjusted ([(⟨10, 5, computeConfidence 0 0⟩ : PredRow)].getD 0 ⟨0, 0, 0⟩))) ∧
    (0 ≤ investmentScore [(⟨10, 5, computeConfidence 0 0⟩ : PredRow)] 0 ∧
      investmentScore [(⟨10, 5, computeConfidence 0 0⟩ : PredRow)] 0 ≤ 10) :=
  composite_score_formula_and_bounds [(⟨10, 5, computeConfidence 0 0⟩ : PredRow)] 0
    (by decide) 0 0 rfl

lemma zip_flatten_eq (folds : List CalFold) (proj : CalFold → List ℚ)
    (hlen : ∀ f ∈ folds, (proj f).length = f.actuals.length) :
    ((folds.map CalFold.actuals).flatten).zip ((folds.map proj).flatten) =
      (folds.map fun f => f.actuals.zip (proj f)).flatten := by
  induction folds with
  | nil => rfl
  | cons f fs ih =>
    simp only [List.map_cons, List.flatten_cons]
    rw [List.zip_append (hlen f (List.mem_cons_self f fs)).symm,
      ih fun g hg => hlen g (List.mem_cons_of_mem f hg)]

/-- Claim C8 — the calibration protocol pools across folds and classifies by
fixed thresholds.  The overall coverage rate for a quantile column equals the
total below-prediction count over the concatenation of all folds divided by
the total pooled size (not an average of per-fold rates), and the
classification is `well_calibrated` when the maximum absolute deviation is
below 10 percentage points, `moderately_calibrated` below 15, and
`poorly_calibrated` otherwise. -/
theorem calibration_pooled_rates_and_classification (folds : List CalFold)
    (_hne : (folds.map CalFold.actuals).flatten ≠ []) :
    (∀ proj : CalFold → List ℚ, (∀ f ∈ folds, (proj f).length = f.actuals.length) →
      aggBelow folds proj =
        ((((folds.map fun f => (f.actuals.zip (proj f)).countP
            fun p => decide (p.1 < p.2)).sum : ℕ) : ℚ) /
          (((folds.map fun f => f.actuals.length).sum : ℕ) : ℚ))) ∧
    (max (max (|aggBelow folds CalFold.p25s - 1/4|) (|aggBelow folds CalFold.p50s - 1/2|))
        (|aggBelow folds CalFold.p75s - 3/4|) < 10/100 →
      calibrationAssessment folds = "well_calibrated") ∧
    (10/100 ≤ max (max (|aggBelow folds CalFold.p25s - 1/4|)
        (|aggBelow folds CalFold.p50s - 1/2|)) (|aggBelow folds CalFold.p75s - 3/4|) →
      max (max (|aggBelow folds CalFold.p25s - 1/4|) (|aggBelow folds CalFold.p50s - 1/2|))
        (|aggBelow folds CalFold.p75s - 3/4|) < 15/100 →
      calibrationAssessment folds = "moderately_calibrated") ∧
    (15/100 ≤ max (max (|aggBelow folds CalFold.p25s - 1/4|)
        (|aggBelow folds CalFold.p50s - 1/2|)) (|aggBelow folds CalFold.p75s - 3/4|) →
      calibrationAssessment folds = "poorly_calibrated") := by
  refine ⟨?_, ?_, ?_, ?_⟩
  · intro proj hlen
    unfold aggBelow belowRate
    rw [zip_flatten_eq folds proj hlen, List.countP_flatten, List.length_flatten,
      List.map_map, List.map_map]
    rfl
  · intro hm
    unfold calibrationAssessment assessCalibration
    rw [if_pos hm]
  · intro hm1 hm2
    unfold calibrationAssessment assessCalibration
    rw [if_neg (not_lt.mpr hm1), if_pos hm2]
  · intro hm
    unfold calibrationAssessment assessCalibration
    rw [if_neg (not_lt.mpr (le_trans (by norm_num) hm)), if_neg (not_lt.mpr hm)]

/-- Witness for C8: two one-sample folds, one covered and one not — the pooled
p25 rate is the pooled count over the pooled size. -/
theorem calibration_pooled_rates_and_classification_witness :
    aggBelow [⟨[0], [1], [1], [1]⟩, ⟨[1], [0], [0], [0]⟩] CalFold.p25s =
      (((([⟨[0], [1], [1], [1]⟩, ⟨[1], [0], [0], [0]⟩] :
          List CalFold).map fun f => (f.actuals.zip (f.p25s)).countP
            fun p => decide (p.1 < p.2)).sum : ℕ) : ℚ) /
        (((([⟨[0], [1], [1], [1]⟩, ⟨[1], [0], [0], [0]⟩] :
          List CalFold).map fun f => f.actuals.length).sum : ℕ) : ℚ) :=
  (calibration_pooled_rates_and_classification
    [⟨[0], [1], [1], [1]⟩, ⟨[1], [0], [0], [0]⟩] (by decide)).1
    CalFold.p25s (by decide)

lemma scoreItem_perHorizon (mf : ModelFiles) (models : Horizon → QuantilePreds)
    (batch : List ScoreItem) (i : ℕ) (h' : Horizon) :
    (scoreItem mf models batch i).perHorizon h' =
      if horizonEnabled mf h' then some (mkHorizonOut (models h') (batch.getD i ⟨0, 0, 0⟩))
      else none := by
  unfold scoreItem
  dsimp only
  split <;> rfl

lemma scoreItem_riskAdjusted_eq (mf : ModelFiles) (models : Horizon → QuantilePreds)
    (batch : List ScoreItem) (i : ℕ) :
    (scoreItem mf models batch i).riskAdjusted =
      (basePred mf models (batch.getD i ⟨0, 0, 0⟩)).riskAdjusted := by
  unfold scoreItem
  dsimp only
  split <;> rfl

lemma basePred_riskAdjusted_agree (mf1 mf2 : ModelFiles) (models : Horizon → QuantilePreds)
    (it : ScoreItem) (hEq : horizonEnabled mf1 Horizon.h1yr = horizonEnabled mf2 Horizon.h1yr) :
    (basePred mf1 models it).riskAdjusted = (basePred mf2 models it).riskAdjusted := by
  unfold basePred
  dsimp only
  rw [hEq]

/-- Claim C9, counterexample: remove only the 1yr horizon's feature-list file.
Every other horizon's availability is unchanged, yet the composite
`investment_score` — not a 1yr per-horizon field — disappears from the
output (it is null, where with the file present it is populated). -/
theorem missing_1yr_horizon_counterexample :
    (∀ h', h' ≠ Horizon.h1yr →
      horizonEnabled mfNo1yrFeatures h' = horizonEnabled mfAllFiles h') ∧
    horizonEnabled mfNo1yrFeatures Horizon.h1yr = false ∧
    (scoreItem mfNo1yrFeatures zeroModels [⟨10, 500, 0⟩] 0).investmentScore = none ∧
    (scoreItem mfAllFiles zeroModels [⟨10, 500, 0⟩] 0).investmentScore.isSome = true := by
  refine ⟨?_, rfl, rfl, rfl⟩
  intro h' hne
  cases h' with
  | h6m => rfl
  | h1yr => exact absurd rfl hne
  | h2yr => rfl
  | h3yr => rfl

/-- Claim C9 as amended: a missing quantile-model or feature-list file for a
horizon other than 1yr disables only that horizon — per-horizon outputs of
the other horizons, both expected-profit fields (when the toggled horizon is
not 3yr), the risk-adjusted score, the composite score and the risk factors
are all unchanged, and each loaded horizon still produces its block.  When
the 1yr horizon itself is missing, items are still scored for the remaining
horizons but the composite investment score and risk factors are absent, the
1yr expected profit is null, and the risk-adjusted score degrades to `0`. -/
theorem missing_horizon_disables_only_that_horizon (mf1 mf2 : ModelFiles)
    (models : Horizon → QuantilePreds) (batch : List ScoreItem) (i : ℕ) (h : Horizon)
    (hneq : h ≠ Horizon.h1yr)
    (hagree : ∀ h', h' ≠ h → horizonEnabled mf1 h' = horizonEnabled mf2 h') :
    (∀ h', (scoreItem mf1 models batch i).perHorizon h' =
      if horizonEnabled mf1 h' then some (mkHorizonOut (models h') (batch.getD i ⟨0, 0, 0⟩))
      else none) ∧
    (∀ h', h' ≠ h → (scoreItem mf1 models batch i).perHorizon h' =
      (scoreItem mf2 models batch i).perHorizon h') ∧
    (scoreItem mf1 models batch i).expectedProfit1yr =
      (scoreItem mf2 models batch i).expectedProfit1yr ∧
    (h ≠ Horizon.h3yr → (scoreItem mf1 models batch i).expectedProfit3yr =
      (scoreItem mf2 models batch i).expectedProfit3yr) ∧
    (scoreItem mf1 models batch i).riskAdjusted =
      (scoreItem mf2 models batch i).riskAdjusted ∧
    (scoreItem mf1 models batch i).investmentScore =
      (scoreItem mf2 models batch i).investmentScore ∧
    (scoreItem mf1 models batch i).riskFactors =
      (scoreItem mf2 models batch i).riskFactors ∧
    (∀ mf : ModelFiles, horizonEnabled mf Horizon.h1yr = false →
      (scoreItem mf models batch i).investmentScore = none ∧
      (scoreItem mf models batch i).riskFactors = none ∧
      (scoreItem mf models batch i).expectedProfit1yr = none ∧
      (scoreItem mf models batch i).riskAdjusted = 0) := by
  have h1yr : horizonEnabled mf1 Horizon.h1yr = horizonEnabled mf2 Horizon.h1yr :=
    hagree Horizon.h1yr (Ne.symm hneq)
  have hcond : (batch.isEmpty = false ∧ horizonEnabled mf1 Horizon.h1yr = true) ↔
      (batch.isEmpty = false ∧ horizonEnabled mf2 Horizon.h1yr = true) := by
    rw [h1yr]
  have hrisk : ∀ it, (basePred mf1 models it).riskAdjusted =
      (basePred mf2 models it).riskAdjusted :=
    fun it => basePred_riskAdjusted_agree mf1 mf2 models it h1yr
  refine ⟨scoreItem_perHorizon mf1 models batch i, ?_, ?_, ?_, ?_, ?_, ?_, ?_⟩
  · intro h' hne
    rw [scoreItem_perHorizon, scoreItem_perHorizon, hagree h' hne]
  · have he1 : (scoreItem mf1 models batch i).expectedProfit1yr =
        (basePred mf1 models (batch.getD i ⟨0, 0, 0⟩)).expectedProfit1yr := by
      unfold scoreItem
      dsimp only
      split <;> rfl
    have he2 : (scoreItem mf2 models batch i).expectedProfit1yr =
        (basePred mf2 models (batch.getD i ⟨0, 0, 0⟩)).expectedProfit1yr := by
      unfold scoreItem
      dsimp only
      split <;> rfl
    rw [he1, he2]
    unfold basePred
    dsimp only
    rw [h1yr]
  · intro h3
    have he1 : (scoreItem mf1 models batch i).expectedProfit3yr =
        (basePred mf1 models (batch.getD i ⟨0, 0, 0⟩)).expectedProfit3yr := by
      unfold scoreItem
      dsimp only
      split <;> rfl
    have he2 : (scoreItem mf2 models batch i).expectedProfit3yr =
        (basePred mf2 models (batch.getD i ⟨0, 0, 0⟩)).expectedProfit3yr := by
      unfold scoreItem
      dsimp only
      split <;> rfl
    rw [he1, he2]
    unfold basePred
    dsimp only
    rw [hagree Horizon.h3yr (Ne.symm h3)]
  · rw [scoreItem_riskAdjusted_eq, scoreItem_riskAdjusted_eq, hrisk]
  · unfold scoreItem
    dsimp only
    by_cases hc : batch.isEmpty = false ∧ horizonEnabled mf1 Horizon.h1yr = true
    · rw [if_pos hc, if_pos (hcond.mp hc)]
      dsimp only
      have hl : (batch.map fun j => (basePred mf1 models j).riskAdjusted) =
          (batch.map fun j => (basePred mf2 models j).riskAdjusted) :=
        List.map_congr_left fun j _ => hrisk j
      rw [hl, hrisk]
    · rw [if_neg hc, if_neg (fun hc2 => hc (hcond.mpr hc2))]
      rfl
  · unfold scoreItem
    dsimp only
    by_cases hc : batch.isEmpty = false ∧ horizonEnabled mf1 Horizon.h1yr = true
    · rw [if_pos hc, if_pos (hcond.mp hc)]
    · rw [if_neg hc, if_neg (fun hc2 => hc (hcond.mpr hc2))]
      rfl
  · intro mf hdis
    have hnc : ¬ (batch.isEmpty = false ∧ horizonEnabled mf Horizon.h1yr = true) := by
      rintro ⟨-, htrue⟩
      rw [hdis] at htrue
      cases htrue
    have hbase : scoreItem mf models batch i = basePred mf models (batch.getD i ⟨0, 0, 0⟩) := by
      unfold scoreItem
      dsimp only
      rw [if_neg hnc]
    rw [hbase]
    refine ⟨rfl, rfl, ?_, ?_⟩
    · unfold basePred
      dsimp only
      rw [hdis]
      rfl
    · unfold basePred
      dsimp only
      rw [hdis]
      simp

/-- Witness for the amended C9: toggling the 6m feature list off leaves the
composite score of the one-item batch unchanged. -/
theorem missing_horizon_disables_only_that_horizon_witness :
    (scoreItem mfNo6mFeatures zeroModels [⟨10, 500, 0⟩] 0).investmentScore =
      (scoreItem mfAllFiles zeroModels [⟨10, 500, 0⟩] 0).investmentScore :=
  (missing_horizon_disables_only_that_horizon mfNo6mFeatures mfAllFiles zeroModels
    [⟨10, 500, 0⟩] 0 Horizon.h6m (by decide)
    (fun h' hne => by
      cases h' with
      | h6m => exact absurd rfl hne
      | h1yr => rfl
      | h2yr => rfl
      | h3yr => rfl)).2.2.2.2.2.1

